import Mathlib

/-!
Verification of the endpoint auto-registration core of the `drf_testtask`
repository: the naming helper `camel_to_snake` (backend/server/utils.py) and
the registration metaclass `ProjectViewMeta` (backend/server/drf.py).

Python strings are modelled as lists of Unicode codepoints (`List Nat`);
the regex character classes `[A-Z]`, `[a-z]`, `\d` of the source patterns are
ASCII, so they become explicit codepoint-interval tests.  `str.lower` is
modelled characterwise, exactly on the Latin-1 range and as the identity
above it (see `pyLowerChar`).
-/

set_option autoImplicit false

namespace Drf

/-- A Python string, as its sequence of Unicode codepoints. -/
abbrev PyStr := List Nat

/-- Codepoints of a Lean string literal, to transcribe concrete Python
string constants into the model. -/
def strCodes (s : String) : PyStr := s.toList.map Char.toNat

/-- The regex class `[A-Z]` (ASCII uppercase). -/
def isUpperAscii (c : Nat) : Bool := decide (65 ≤ c ∧ c ≤ 90)

/-- The regex class `[a-z]` (ASCII lowercase). -/
def isLowerAscii (c : Nat) : Bool := decide (97 ≤ c ∧ c ≤ 122)

/-- The regex class `\d`.  Modelling restriction: Python `re` without
`re.ASCII` matches every Unicode decimal digit; the model covers the ASCII
digits `[0-9]`, the only digits of the identifiers the naming contract
admits (spec §4.1: identifiers are composed of ASCII letters/digits).  On an
input holding a non-ASCII digit immediately before an uppercase letter the
model would miss the second pattern's match. -/
def isDigitAscii (c : Nat) : Bool := decide (48 ≤ c ∧ c ≤ 57)

/-- The uppercase letters of the Latin-1 supplement, `À` (U+00C0) to `Þ`
(U+00DE) without the multiplication sign `×` (U+00D7). -/
def isUpperLatin1 (c : Nat) : Bool := decide ((192 ≤ c ∧ c ≤ 222) ∧ c ≠ 215)

/-- Codepoint of the underscore inserted by the replacement templates. -/
def underscore : Nat := 95

/-- Codepoint of the newline, which the regex metacharacter `.` does not
match (no DOTALL flag in the source). -/
def newline : Nat := 10

/-- One character of `str.lower`.  This is exact on the whole Latin-1 range
(codepoints below 256): the uppercase letters `A`-`Z` and `À`-`Þ` (without
`×`) shift down by 32 — so `"É".lower() == "é"` is reproduced — and every
other Latin-1 codepoint is fixed.  Above Latin-1 the model is the identity,
a stated restriction: Unicode case mapping beyond Latin-1 (Greek, Cyrillic,
titlecase forms, ...) is not reproduced, and the one theorem below whose
truth would differ beyond Latin-1 carries an explicit Latin-1 hypothesis. -/
def pyLowerChar (c : Nat) : Nat :=
  if isUpperAscii c then c + 32
  else if isUpperLatin1 c then c + 32
  else c

/-- `str.lower`, characterwise (Latin-1-exact, see `pyLowerChar`). -/
def pyLower (s : PyStr) : PyStr := s.map pyLowerChar

/-- Whether a string starts with a lowercase ASCII letter: the lookahead for
the nonempty lowercase run `[a-z]+` of the first pattern. -/
def headIsLower : PyStr → Bool
  | d :: _ => isLowerAscii d
  | [] => false

/--
`re.sub(r"(.)([A-Z][a-z]+)", r"\1_\2", name)` as a left-to-right transducer.

`re.sub` scans for the leftmost match, replaces it, and resumes scanning
immediately after the matched text (matches never overlap).  A match is a
non-newline character `\1`, then an uppercase letter followed by a maximal
(greedy) nonempty run of lowercase letters as `\2`; the replacement keeps
both groups and inserts an underscore between them.

The transducer consumes one character per step.  `elig`/`prev` record
whether the previously emitted character may serve as group `\1` (characters
consumed inside an earlier match may not) and what it was; `inRun` records
that we are inside the lowercase run of a match, whose characters are copied
and are not eligible as `\1`.  When the run ends, the next character is
emitted as an ordinary character: no match can begin at it as group `\2`,
since its predecessor belongs to the previous match.
-/
def sub1Go (elig : Bool) (prev : Nat) (inRun : Bool) : PyStr → PyStr
  | [] => []
  | c :: rest =>
    if inRun then
      if isLowerAscii c then c :: sub1Go elig prev true rest
      else c :: sub1Go true c false rest
    else
      if elig ∧ prev ≠ newline ∧ isUpperAscii c = true ∧ headIsLower rest = true then
        underscore :: c :: sub1Go true c true rest
      else
        c :: sub1Go true c false rest

/-- First substitution pass of `camel_to_snake`.  The scan starts at the
first character, which has no predecessor, hence `elig = false`. -/
def sub1 (s : PyStr) : PyStr := sub1Go false 0 false s

/--
`re.sub(r"([a-z\d])([A-Z])", r"\1_\2", name)`: an underscore is inserted
between a lowercase letter or digit and an uppercase letter.  After a match
the scan resumes after `\2`; since an uppercase letter can never be group
`\1`, skipping it loses no match.
-/
def sub2 : PyStr → PyStr
  | c1 :: c2 :: rest =>
    if (isLowerAscii c1 || isDigitAscii c1) = true ∧ isUpperAscii c2 = true then
      c1 :: underscore :: c2 :: sub2 rest
    else
      c1 :: sub2 (c2 :: rest)
  | s => s

/-- `camel_to_snake` from backend/server/utils.py: the two substitution
passes followed by `str.lower`. -/
def camel_to_snake (name : PyStr) : PyStr := pyLower (sub2 (sub1 name))

/-- `str.removesuffix`: if the suffix is nonempty and the string ends with
it, drop that many characters from the end; otherwise return the string
unchanged. -/
def removesuffix (s suffix : PyStr) : PyStr :=
  if suffix ≠ [] ∧ s.drop (s.length - suffix.length) = suffix then
    s.take (s.length - suffix.length)
  else s

/-- The conventional view-class suffix `"View"`. -/
def VIEW : PyStr := strCodes "View"

/-- The name-derivation step of `ProjectViewMeta.__new__` (drf.py line 34):
`camel_to_snake(name.removesuffix("View"))`. -/
def derive (name : PyStr) : PyStr := camel_to_snake (removesuffix name VIEW)

example : camel_to_snake (strCodes "QuestionChoice") = strCodes "question_choice" := by decide
example : camel_to_snake (strCodes "OAuthToken") = strCodes "o_auth_token" := by decide
example : derive (strCodes "LoginView") = strCodes "login" := by decide
example : sub1 (strCodes "OAuthToken") = strCodes "O_AuthToken" := by decide

/-!
The registration metaclass `ProjectViewMeta` (backend/server/drf.py).

A class definition presents to `ProjectViewMeta.__new__` its name, its direct
bases and its namespace `dct`.  The model keeps the parts the metaclass
reads: whether `ABC` is among the direct bases, the `"url"` entry of the
namespace (as a string when present; an explicit `url = None` entry is not
distinguished from an absent one, the registry keys being strings), the
`url` attribute contributed by the bases (for the `hasattr(cls, "url")`
lookup when the namespace itself has none), and the resulting class object,
kept opaque as a value of a type parameter `H`.
-/

/-- What `ProjectViewMeta.__new__(mcs, name, bases, dct)` sees of one class
definition. -/
structure ClassDef (H : Type) where
  name : PyStr
  hasABC : Bool
  url : Option PyStr
  inheritedUrl : Option PyStr
  handler : H


/-- The state of `ProjectViewMeta._apis`: a Python `dict` keyed by url,
modelled as its insertion-ordered entry list. -/
abbrev Registry (H : Type) := List (PyStr × H)

/-- Python `dict` assignment `d[k] = v`: an existing key keeps its position
and gets the new value, a fresh key is appended. -/
def dictInsert {H : Type} (apis : Registry H) (k : PyStr) (v : H) : Registry H :=
  if apis.any (fun p => decide (p.1 = k)) then
    apis.map (fun p => if p.1 = k then (k, v) else p)
  else apis ++ [(k, v)]

/-- The attribute lookup `cls.url` backing `hasattr(cls, "url")` for a class
whose namespace was not rewritten: the namespace entry if present, else the
attribute inherited from the bases. -/
def clsUrl {H : Type} (c : ClassDef H) : Option PyStr :=
  match c.url with
  | some u => some u
  | none => c.inheritedUrl

/-- The key computation of drf.py line 34,
`dct.get("url") or camel_to_snake(name.removesuffix("View"))`:
Python `or` falls through to derivation when the entry is absent or falsy
(the empty string). -/
def api_name {H : Type} (c : ClassDef H) : PyStr :=
  match c.url with
  | some u => if u = [] then derive c.name else u
  | none => derive c.name

/-- The `ValueError(f"api with <{api_name}> url already exist")` raised on a
duplicate key. -/
inductive RegError where
  | duplicate (url : PyStr)
deriving DecidableEq

/--
`ProjectViewMeta.__new__` acting on the registry.

If `ABC` is not among the direct bases, the key is computed, a duplicate key
raises `ValueError`, and otherwise `dct["url"] = api_name` makes
`hasattr(cls, "url")` true, so `mcs._apis[cls.url] = cls` stores the class
under the key.  If `ABC` is among the bases, none of that runs; the class is
still stored — without any duplicate check — whenever it has a `url`
attribute, under that attribute.
-/
def register {H : Type} (apis : Registry H) (c : ClassDef H) :
    Except RegError (Registry H) :=
  if c.hasABC = false then
    let key := api_name c
    if apis.any (fun p => decide (p.1 = key)) then .error (.duplicate key)
    else .ok (dictInsert apis key c.handler)
  else
    match clsUrl c with
    | some u => .ok (dictInsert apis u c.handler)
    | none => .ok apis

/-- The classes of a module body registering in definition order; the first
`ValueError` propagates. -/
def registerAll {H : Type} (apis : Registry H) :
    List (ClassDef H) → Except RegError (Registry H)
  | [] => .ok apis
  | c :: cs =>
    match register apis c with
    | .ok next => registerAll next cs
    | .error e => .error e

/-- An opaque view callable, as produced by `cls.as_view()` (external
framework constructor, kept abstract). -/
inductive ViewFn (H : Type) where
  | as_view (cls : H)
deriving DecidableEq

/-- `cls.as_view()`. -/
def as_view {H : Type} (cls : H) : ViewFn H := ViewFn.as_view cls

/-- A mounted URL pattern, as produced by django's `path(route, view)`
(external framework constructor, kept abstract). -/
structure UrlPattern (H : Type) where
  route : PyStr
  view : ViewFn H
deriving DecidableEq

/-- django's `path(route, view)`. -/
def path {H : Type} (route : PyStr) (view : ViewFn H) : UrlPattern H :=
  ⟨route, view⟩

/-- `ProjectViewMeta.get_paths`: builds `path(name, cls.as_view())` for every
entry of `_apis` in order.  As a classmethod reading process-wide state it is
modelled as a state transformer; the comprehension only reads `_apis`, so the
state component is returned untouched. -/
def get_paths {H : Type} (apis : Registry H) :
    List (UrlPattern H) × Registry H :=
  (apis.map (fun p => path p.1 (as_view p.2)), apis)

/-!
`ProjectViewMeta.initialize` (drf.py lines 56-73): filter
`settings.INSTALLED_APPS` down to the apps not starting with `"django."`,
then `__import__(f"{app}.api")` each, swallowing only `ModuleNotFoundError`.
-/

/-- What `__import__(f"{app}.api")` can do.  The `except` clause of the
scanning loop catches by exception class, so the model records the class
of the exception, not the reason it arose:

* `absent` — there is no `api` sub-unit: the import machinery raises
  `ModuleNotFoundError` before any code of the app runs;
* `bodyRaises defined isModuleNotFound` — the sub-unit exists and its body
  ran far enough to define the handler classes `defined` (whose
  registrations, being side effects on `_apis`, persist), then raised an
  exception: of class `ModuleNotFoundError` when the flag is true (e.g. the
  body itself imports a missing third module), of some other class when it
  is false;
* `ok classes` — the body runs to completion, defining `classes` in
  order. -/
inductive LoadOutcome (H : Type) where
  | absent
  | bodyRaises (defined : List (ClassDef H)) (isModuleNotFound : Bool)
  | ok (classes : List (ClassDef H))

/-- An error escaping the import loop: a non-`ModuleNotFoundError` exception
from a module body, or the duplicate-url `ValueError` raised by the
metaclass while the body's classes register. -/
inductive InitError where
  | loadFailure
  | dup (e : RegError)
deriving DecidableEq

/-- Python `str.startswith`. -/
def startswith (s pre : PyStr) : Bool := decide (s.take pre.length = pre)

/-- The host framework's namespace, excluded from scanning. -/
def DJANGO : PyStr := strCodes "django."

/-- The import loop of `initialize`.  Besides the final outcome it returns
the apps whose `api` sub-unit the loop attempted to import, in order.
`except ModuleNotFoundError: pass` catches by class: the loop continues
both when the sub-unit is absent and when an existing sub-unit's body
raises a `ModuleNotFoundError` itself; an exception of any other class
(including the duplicate-url `ValueError` raised while the body's classes
register) stops the loop and escapes. -/
def initLoop {H : Type} (load : PyStr → LoadOutcome H) :
    List PyStr → Registry H → List PyStr × Except InitError (Registry H)
  | [], apis => ([], .ok apis)
  | app :: rest, apis =>
    match load app with
    | .absent =>
      let r := initLoop load rest apis
      (app :: r.1, r.2)
    | .bodyRaises defined isMNF =>
      match registerAll apis defined with
      | .ok next =>
        match isMNF with
        | true =>
          let r := initLoop load rest next
          (app :: r.1, r.2)
        | false => ([app], .error .loadFailure)
      | .error e => ([app], .error (.dup e))
    | .ok classes =>
      match registerAll apis classes with
      | .ok next =>
        let r := initLoop load rest next
        (app :: r.1, r.2)
      | .error e => ([app], .error (.dup e))

/-- `ProjectViewMeta.initialize` (named `initializeApps` here): the
name-prefix filter followed by the import loop. -/
def initializeApps {H : Type} (load : PyStr → LoadOutcome H)
    (installed_apps : List PyStr) (apis : Registry H) :
    List PyStr × Except InitError (Registry H) :=
  initLoop load (installed_apps.filter (fun app => !(startswith app DJANGO))) apis

example :
    register ([] : Registry Nat)
      { name := strCodes "LoginView", hasABC := false, url := none,
        inheritedUrl := none, handler := 1 } =
    .ok [(strCodes "login", 1)] := by rfl

example :
    register [(strCodes "login", 1)]
      { name := strCodes "X", hasABC := false, url := some (strCodes "login"),
        inheritedUrl := none, handler := 2 } =
    .error (.duplicate (strCodes "login")) := by rfl

/-! Lemmas about the naming helper. -/

theorem isUpperAscii_iff {c : Nat} : isUpperAscii c = true ↔ 65 ≤ c ∧ c ≤ 90 := by
  simp [isUpperAscii]

theorem isUpperLatin1_iff {c : Nat} :
    isUpperLatin1 c = true ↔ (192 ≤ c ∧ c ≤ 222) ∧ c ≠ 215 := by
  simp [isUpperLatin1]

theorem pyLowerChar_not_upper (c : Nat) : isUpperAscii (pyLowerChar c) = false := by
  unfold pyLowerChar
  by_cases h1 : isUpperAscii c = true
  · rw [if_pos h1]
    rw [isUpperAscii_iff] at h1
    simp only [isUpperAscii, decide_eq_false_iff_not, not_and, not_le]
    omega
  · rw [Bool.not_eq_true] at h1
    rw [if_neg (by simp [h1])]
    by_cases h2 : isUpperLatin1 c = true
    · rw [if_pos h2]
      rw [isUpperLatin1_iff] at h2
      simp only [isUpperAscii, decide_eq_false_iff_not, not_and, not_le]
      omega
    · rw [Bool.not_eq_true] at h2
      rw [if_neg (by simp [h2])]
      exact h1

theorem pyLowerChar_not_upperLatin1 (c : Nat) :
    isUpperLatin1 (pyLowerChar c) = false := by
  unfold pyLowerChar
  by_cases h1 : isUpperAscii c = true
  · rw [if_pos h1]
    rw [isUpperAscii_iff] at h1
    simp only [isUpperLatin1, decide_eq_false_iff_not, not_and]
    omega
  · rw [Bool.not_eq_true] at h1
    rw [if_neg (by simp [h1])]
    by_cases h2 : isUpperLatin1 c = true
    · rw [if_pos h2]
      rw [isUpperLatin1_iff] at h2
      simp only [isUpperLatin1, decide_eq_false_iff_not, not_and]
      omega
    · rw [Bool.not_eq_true] at h2
      rw [if_neg (by simp [h2])]
      exact h2

theorem pyLowerChar_fix_of_not_upper {c : Nat} (h1 : isUpperAscii c = false)
    (h2 : isUpperLatin1 c = false) : pyLowerChar c = c := by
  simp [pyLowerChar, h1, h2]

theorem pyLowerChar_idem (c : Nat) :
    pyLowerChar (pyLowerChar c) = pyLowerChar c :=
  pyLowerChar_fix_of_not_upper (pyLowerChar_not_upper c)
    (pyLowerChar_not_upperLatin1 c)

theorem pyLower_idem (s : PyStr) : pyLower (pyLower s) = pyLower s := by
  simp [pyLower, List.map_map, Function.comp, pyLowerChar_idem]

theorem pyLower_fix_mem :
    ∀ s : PyStr, pyLower s = s → ∀ c ∈ s, pyLowerChar c = c := by
  intro s
  induction s with
  | nil => intro _ c hc; simp at hc
  | cons a t ih =>
    intro h c hc
    simp only [pyLower, List.map_cons, List.cons.injEq] at h
    rcases List.mem_cons.mp hc with rfl | hm
    · exact h.1
    · exact ih h.2 c hm

theorem not_upper_of_pyLowerChar_fix {c : Nat} (h : pyLowerChar c = c) :
    isUpperAscii c = false := by
  cases hb : isUpperAscii c with
  | false => rfl
  | true =>
    exfalso
    unfold pyLowerChar at h
    rw [if_pos hb] at h
    omega

theorem mem_pyLower_not_upper {s : PyStr} {c : Nat} (h : c ∈ pyLower s) :
    isUpperAscii c = false := by
  simp only [pyLower, List.mem_map] at h
  obtain ⟨d, _, rfl⟩ := h
  exact pyLowerChar_not_upper d

theorem mem_camel_to_snake_not_upper {s : PyStr} {c : Nat}
    (h : c ∈ camel_to_snake s) : isUpperAscii c = false :=
  mem_pyLower_not_upper h

theorem sub1Go_of_not_upper {s : PyStr} (h : ∀ c ∈ s, isUpperAscii c = false) :
    ∀ elig prev, sub1Go elig prev false s = s := by
  induction s with
  | nil => intro _ _; rfl
  | cons c rest ih =>
    intro elig prev
    have hc : isUpperAscii c = false := h c (by simp)
    simp only [sub1Go, Bool.false_eq_true, if_false, hc, ne_eq,
      false_and, and_false, if_neg, not_false_eq_true]
    exact congrArg (c :: ·) (ih (fun d hd => h d (by simp [hd])) true c)

theorem sub2_of_not_upper {s : PyStr} (h : ∀ c ∈ s, isUpperAscii c = false) :
    sub2 s = s := by
  induction s with
  | nil => rfl
  | cons c1 rest ih =>
    match rest with
    | [] => rfl
    | c2 :: rest2 =>
      have hc2 : isUpperAscii c2 = false := h c2 (by simp)
      have htail : sub2 (c2 :: rest2) = c2 :: rest2 :=
        ih (fun d hd => h d (by simp [hd]))
      simp only [sub2, hc2, Bool.false_eq_true, and_false, if_neg,
        not_false_eq_true, htail]

theorem camel_to_snake_of_lower_fix {s : PyStr} (h : pyLower s = s) :
    camel_to_snake s = s := by
  have hnu : ∀ c ∈ s, isUpperAscii c = false := fun c hc =>
    not_upper_of_pyLowerChar_fix (pyLower_fix_mem s h c hc)
  unfold camel_to_snake sub1
  rw [sub1Go_of_not_upper hnu false 0, sub2_of_not_upper hnu, h]

theorem removesuffix_append (s suffix : PyStr) (h : suffix ≠ []) :
    removesuffix (s ++ suffix) suffix = s := by
  have hlen : (s ++ suffix).length - suffix.length = s.length := by
    simp
  unfold removesuffix
  rw [hlen, List.drop_left, List.take_left]
  simp [h]

/-- C2: the name derivation of drf.py line 34 reproduces the spec's pinned
test vectors, including the consecutive-capitals edge case:
`derive "QuestionChoiceView" = "question_choice"` and
`derive "OAuthTokenView" = "o_auth_token"`. -/
theorem derive_pinned_vectors :
    derive (strCodes "QuestionChoiceView") = strCodes "question_choice"
    ∧ derive (strCodes "OAuthTokenView") = strCodes "o_auth_token" := by
  exact ⟨by decide, by decide⟩

/-- C6: name derivation removes one trailing `"View"` suffix before the
separator-insertion and lowercasing passes, so appending the suffix to any
identifier derives to the bare `camel_to_snake` of that identifier,
`derive "LoginView" = "login"`, and the suffix never appears in a derived
path segment (the codepoint 86 of its uppercase `V` — hence any occurrence
of `"View"` — is absent from every derived segment). -/
theorem derive_strips_view_suffix :
    (∀ s : PyStr, derive (s ++ VIEW) = camel_to_snake s)
    ∧ derive (strCodes "LoginView") = strCodes "login"
    ∧ (∀ s : PyStr, (derive s).contains 86 = false) := by
  refine ⟨fun s => ?_, by decide, fun s => ?_⟩
  · unfold derive
    rw [removesuffix_append s VIEW (by decide)]
  · have hmem : 86 ∉ derive s := by
      intro hm
      have := mem_camel_to_snake_not_upper hm
      simp [isUpperAscii] at this
    simp [List.contains, hmem]

/-- Counterexample to C10 as stated: the input `"É"` (codepoint 201)
contains no uppercase ASCII letter, neither regex pattern matches it, yet
`str.lower` maps it to `"é"` (codepoint 233), so `camel_to_snake` does not
return it unchanged. -/
theorem camel_to_snake_changes_uppercase_free_input :
    (∀ c ∈ ([201] : PyStr), isUpperAscii c = false)
    ∧ camel_to_snake [201] ≠ [201]
    ∧ camel_to_snake [201] = [233] :=
  ⟨by decide, by decide, by decide⟩

/-- C10 (amended): every codepoint produced by `camel_to_snake` is outside
the ASCII uppercase range, so lowering the output leaves it unchanged
(`pyLower ∘ camel_to_snake = camel_to_snake`); and a Latin-1 input that
lowercasing already leaves unchanged is returned unchanged.  (An input
merely free of uppercase ASCII letters need not be: lowercasing may still
change it, as `"É" → "é"`.) -/
theorem camel_to_snake_lower_closed :
    (∀ s : PyStr, ∀ c ∈ camel_to_snake s, isUpperAscii c = false)
    ∧ (∀ s : PyStr, pyLower (camel_to_snake s) = camel_to_snake s)
    ∧ (∀ s : PyStr, (∀ c ∈ s, c < 256) → pyLower s = s →
        camel_to_snake s = s) :=
  ⟨fun _ _ hc => mem_camel_to_snake_not_upper hc,
   fun s => pyLower_idem (sub2 (sub1 s)),
   fun _ _ h => camel_to_snake_of_lower_fix h⟩

/-- Witness for amended C10 at concrete inputs. -/
theorem camel_to_snake_lower_closed_witness :
    isUpperAscii 95 = false
    ∧ pyLower (camel_to_snake (strCodes "FooBar")) = camel_to_snake (strCodes "FooBar")
    ∧ camel_to_snake (strCodes "foo_bar1") = strCodes "foo_bar1" :=
  ⟨camel_to_snake_lower_closed.1 (strCodes "FooBar") 95 (by decide),
   camel_to_snake_lower_closed.2.1 (strCodes "FooBar"),
   camel_to_snake_lower_closed.2.2 (strCodes "foo_bar1") (by decide) (by decide)⟩

/-! Lemmas and claims about the registry. -/

theorem registerAll_ok_eq {H : Type} (cs : List (ClassDef H)) :
    ∀ s apis : Registry H, (∀ c ∈ cs, c.hasABC = false) →
      registerAll s cs = .ok apis →
      apis = s ++ cs.map (fun c => (api_name c, c.handler)) := by
  induction cs with
  | nil =>
    intro s apis _ h
    simp only [registerAll] at h
    simp [Except.ok.injEq] at h
    simp [h]
  | cons c cs ih =>
    intro s apis habc h
    have hc : c.hasABC = false := habc c (by simp)
    by_cases hdup : s.any (fun p => decide (p.1 = api_name c)) = true
    · simp [registerAll, register, hc, hdup] at h
    · have hreg : register s c = .ok (s ++ [(api_name c, c.handler)]) := by
        simp [register, hc, hdup, dictInsert]
      rw [registerAll, hreg] at h
      have := ih (s ++ [(api_name c, c.handler)]) apis
        (fun d hd => habc d (by simp [hd])) h
      simp [this, List.append_assoc]

/-- Example concrete handler classes. -/
def cLogin : ClassDef Nat :=
  { name := strCodes "LoginView", hasABC := false, url := none,
    inheritedUrl := none, handler := 1 }

def cLoginClash : ClassDef Nat :=
  { name := strCodes "TokenView", hasABC := false,
    url := some (strCodes "login"), inheritedUrl := none, handler := 2 }

def cQuestion : ClassDef Nat :=
  { name := strCodes "QuestionView", hasABC := false, url := none,
    inheritedUrl := none, handler := 4 }

/-- C1: two class definitions resolving to the same registry key: the first
alone registers successfully, its pair is what `get_paths` reports, and the
second registration raises the duplicate-url `ValueError`, aborting class
creation (and hence startup). -/
theorem register_duplicate_key_aborts {H : Type} (c1 c2 : ClassDef H)
    (h1 : c1.hasABC = false) (h2 : c2.hasABC = false)
    (hk : api_name c2 = api_name c1) :
    register ([] : Registry H) c1 = .ok [(api_name c1, c1.handler)]
    ∧ (get_paths [(api_name c1, c1.handler)]).1
        = [path (api_name c1) (as_view c1.handler)]
    ∧ register [(api_name c1, c1.handler)] c2
        = .error (.duplicate (api_name c2)) := by
  refine ⟨?_, rfl, ?_⟩
  · simp [register, h1, dictInsert]
  · simp [register, h2, hk]

/-- Witness for C1: `LoginView` registers at `login`; a second handler with
explicit url `login` is rejected. -/
theorem register_duplicate_key_aborts_witness :
    register ([] : Registry Nat) cLogin = .ok [(api_name cLogin, cLogin.handler)]
    ∧ (get_paths [(api_name cLogin, cLogin.handler)]).1
        = [path (api_name cLogin) (as_view cLogin.handler)]
    ∧ register [(api_name cLogin, cLogin.handler)] cLoginClash
        = .error (.duplicate (api_name cLoginClash)) :=
  register_duplicate_key_aborts cLogin cLoginClash rfl rfl (by decide)

def cEmptyUrl : ClassDef Nat :=
  { name := strCodes "XView", hasABC := false, url := some [],
    inheritedUrl := none, handler := 7 }

/-- Counterexample to C4 as stated: a class that does supply a `"url"` entry
— the empty string — for which the key is nevertheless derived from the
class name (`"XView"` registers at `"x"`, not at `""`), because `or` in
`dct.get("url") or camel_to_snake(...)` falls through on a falsy value. -/
theorem explicit_url_not_always_verbatim :
    cEmptyUrl.url = some ([] : PyStr)
    ∧ api_name cEmptyUrl = derive cEmptyUrl.name
    ∧ api_name cEmptyUrl ≠ cEmptyUrl.url.getD []
    ∧ register ([] : Registry Nat) cEmptyUrl = .ok [(strCodes "x", 7)] :=
  ⟨rfl, rfl, by decide, by rfl⟩

/-- C4 (amended): a non-empty explicit `"url"` entry is used verbatim as the
key — the derived name plays no part — and every registry operation of the
registration uses that key. -/
theorem explicit_url_verbatim {H : Type} (c : ClassDef H) (u : PyStr)
    (apis : Registry H) (habc : c.hasABC = false) (hurl : c.url = some u)
    (hne : u ≠ []) :
    api_name c = u
    ∧ (register apis c = .error (.duplicate u)
       ∨ register apis c = .ok (dictInsert apis u c.handler)) := by
  have hname : api_name c = u := by simp [api_name, hurl, hne]
  refine ⟨hname, ?_⟩
  by_cases hdup : apis.any (fun p => decide (p.1 = api_name c)) = true
  · left
    simp [register, habc, ← hname, hdup]
  · right
    simp [register, habc, ← hname, hdup]

def cCustom : ClassDef Nat :=
  { name := strCodes "YView", hasABC := false,
    url := some (strCodes "custom"), inheritedUrl := none, handler := 3 }

/-- Witness for amended C4 at a concrete class with explicit url. -/
theorem explicit_url_verbatim_witness :
    api_name cCustom = strCodes "custom"
    ∧ (register ([] : Registry Nat) cCustom
         = .error (.duplicate (strCodes "custom"))
       ∨ register ([] : Registry Nat) cCustom
         = .ok (dictInsert [] (strCodes "custom") cCustom.handler)) :=
  explicit_url_verbatim cCustom (strCodes "custom") [] rfl rfl (by decide)

/-- C5: after any sequence of successful (non-abstract) registrations,
`get_paths` reports one `path` per registration, appended to the prior
routing table in exactly the order the registrations occurred. -/
theorem get_paths_insertion_order {H : Type} (cs : List (ClassDef H))
    (s apis : Registry H) (habc : ∀ c ∈ cs, c.hasABC = false)
    (hok : registerAll s cs = .ok apis) :
    (get_paths apis).1
      = (get_paths s).1
        ++ cs.map (fun c => path (api_name c) (as_view c.handler)) := by
  have heq := registerAll_ok_eq cs s apis habc hok
  simp [get_paths, heq, List.map_append, List.map_map, Function.comp]

/-- Witness for C5: registering `LoginView` then `QuestionView` from the
empty registry yields the two paths in that order. -/
theorem get_paths_insertion_order_witness :
    (get_paths [(strCodes "login", 1), (strCodes "question", 4)]).1
      = (get_paths ([] : Registry Nat)).1
        ++ [cLogin, cQuestion].map
            (fun c => path (api_name c) (as_view c.handler)) :=
  get_paths_insertion_order [cLogin, cQuestion] [] _ (by decide) (by rfl)

/-- C8: `get_paths` leaves the registry untouched and a second call on the
state it returns reports the same sequence. -/
theorem get_paths_pure {H : Type} (apis : Registry H) :
    (get_paths apis).2 = apis
    ∧ (get_paths apis).1 = (get_paths ((get_paths apis).2)).1 :=
  ⟨rfl, rfl⟩

/-- C9: a class definition with `ABC` among its direct bases skips the
duplicate check entirely: with any `"url"` entry it registers successfully
against every registry state, and on a registry already holding that key it
silently overwrites the existing entry in place. -/
theorem abc_class_bypasses_duplicate_check {H : Type} (c : ClassDef H)
    (u : PyStr) (h1 : H) (apis : Registry H)
    (habc : c.hasABC = true) (hurl : c.url = some u) :
    register apis c = .ok (dictInsert apis u c.handler)
    ∧ register [(u, h1)] c = .ok [(u, c.handler)] := by
  have hcls : clsUrl c = some u := by simp [clsUrl, hurl]
  constructor
  · simp [register, habc, hcls]
  · simp [register, habc, hcls, dictInsert]

def cAbcUrl : ClassDef Nat :=
  { name := strCodes "BaseView", hasABC := true,
    url := some (strCodes "login"), inheritedUrl := none, handler := 9 }

/-- Witness for C9: an abstract class carrying url `login` overwrites the
registered `login` handler without an error. -/
theorem abc_class_bypasses_duplicate_check_witness :
    register ([(strCodes "login", 1)] : Registry Nat) cAbcUrl
      = .ok (dictInsert [(strCodes "login", 1)] (strCodes "login") cAbcUrl.handler)
    ∧ register [(strCodes "login", (1 : Nat))] cAbcUrl
      = .ok [(strCodes "login", cAbcUrl.handler)] :=
  abc_class_bypasses_duplicate_check cAbcUrl (strCodes "login") 1
    [(strCodes "login", 1)] rfl rfl

/-! Lemmas and claims about discovery. -/

theorem initLoop_trace_mem {H : Type} (load : PyStr → LoadOutcome H) :
    ∀ (apps : List PyStr) (s : Registry H) (app : PyStr),
      app ∈ (initLoop load apps s).1 → app ∈ apps := by
  intro apps
  induction apps with
  | nil => intro s app h; simp [initLoop] at h
  | cons a tl ih =>
    intro s app h
    cases hla : load a with
    | absent =>
      simp only [initLoop, hla] at h
      rcases List.mem_cons.mp h with rfl | hm
      · exact List.mem_cons_self _ _
      · exact List.mem_cons_of_mem _ (ih s app hm)
    | bodyRaises defined isMNF =>
      cases hreg : registerAll s defined with
      | ok next =>
        cases isMNF with
        | true =>
          simp only [initLoop, hla, hreg] at h
          rcases List.mem_cons.mp h with rfl | hm
          · exact List.mem_cons_self _ _
          · exact List.mem_cons_of_mem _ (ih next app hm)
        | false =>
          simp only [initLoop, hla, hreg, List.mem_singleton] at h
          simp [h]
      | error e =>
        simp only [initLoop, hla, hreg, List.mem_singleton] at h
        simp [h]
    | ok classes =>
      simp only [initLoop, hla] at h
      cases hreg : registerAll s classes with
      | ok next =>
        rw [hreg] at h
        rcases List.mem_cons.mp h with rfl | hm
        · exact List.mem_cons_self _ _
        · exact List.mem_cons_of_mem _ (ih next app hm)
      | error e =>
        rw [hreg] at h
        simp only [List.mem_singleton] at h
        simp [h]

theorem initLoop_trace_of_ok {H : Type} (load : PyStr → LoadOutcome H) :
    ∀ (apps : List PyStr) (s s2 : Registry H),
      (initLoop load apps s).2 = .ok s2 → (initLoop load apps s).1 = apps := by
  intro apps
  induction apps with
  | nil => intro s s2 _; rfl
  | cons a tl ih =>
    intro s s2 h
    cases hla : load a with
    | absent =>
      simp only [initLoop, hla] at h ⊢
      exact congrArg (a :: ·) (ih s s2 h)
    | bodyRaises defined isMNF =>
      cases hreg : registerAll s defined with
      | ok next =>
        cases isMNF with
        | true =>
          simp only [initLoop, hla, hreg] at h ⊢
          exact congrArg (a :: ·) (ih next s2 h)
        | false =>
          simp only [initLoop, hla, hreg] at h
          exact Except.noConfusion h
      | error e =>
        simp only [initLoop, hla, hreg] at h
        exact Except.noConfusion h
    | ok classes =>
      simp only [initLoop, hla] at h ⊢
      cases hreg : registerAll s classes with
      | ok next =>
        rw [hreg] at h
        exact congrArg (a :: ·) (ih next s2 h)
      | error e =>
        rw [hreg] at h
        exact Except.noConfusion h

/-- An installed app `survey` whose `api` sub-unit exists but whose body
raises a `ModuleNotFoundError` of its own — say `survey/api.py` begins
with the line `import missing_lib` — before defining any handler; every
other app loads an empty body. -/
def loadDefect : PyStr → LoadOutcome Nat := fun app =>
  if app = strCodes "survey" then .bodyRaises [] true
  else .ok []

/-- C3 (code bug): the claim — with spec §4.3/§7 — requires every load
failure other than "sub-unit absent" to propagate unchanged and abort
discovery, but `except ModuleNotFoundError: pass` (drf.py lines 70-73)
catches by exception class.  At `loadDefect`, where `survey/api.py` exists
and its body raises a `ModuleNotFoundError` of its own, the loop swallows
the error, goes on to scan the remaining app `extra`, and reports success
with zero entries from `survey` — instead of aborting with the underlying
error. -/
theorem discovery_swallows_inner_module_not_found :
    (initLoop loadDefect [strCodes "survey", strCodes "extra"]
        ([] : Registry Nat)).2 = .ok []
    ∧ (initLoop loadDefect [strCodes "survey", strCodes "extra"]
        ([] : Registry Nat)).1 = [strCodes "survey", strCodes "extra"] :=
  ⟨rfl, rfl⟩

/-- The import behaviors used to instantiate the discovery claims. -/
def loadEx : PyStr → LoadOutcome Nat := fun app =>
  if app = strCodes "noapi" then .absent
  else if app = strCodes "broken" then .bodyRaises [] false
  else .ok []

/-- C7: discovery attempts to import the `api` sub-unit only of installed
apps whose name does not start with `"django."`, and — whenever the scan
runs to completion — of exactly those apps. -/
theorem initialize_scans_exactly_nondjango {H : Type}
    (load : PyStr → LoadOutcome H) (installed_apps : List PyStr)
    (s : Registry H) :
    (∀ app ∈ (initializeApps load installed_apps s).1,
       app ∈ installed_apps ∧ startswith app DJANGO = false)
    ∧ (∀ s2 : Registry H, (initializeApps load installed_apps s).2 = .ok s2 →
       (initializeApps load installed_apps s).1
         = installed_apps.filter (fun app => !(startswith app DJANGO))) := by
  constructor
  · intro app happ
    have hmem := initLoop_trace_mem load _ s app happ
    rw [List.mem_filter] at hmem
    refine ⟨hmem.1, ?_⟩
    have := hmem.2
    simpa using this
  · intro s2 h
    exact initLoop_trace_of_ok load _ s s2 h

/-- Witness for C7: with apps `django.admin` and `survey`, only `survey` is
scanned, and on a completed run the trace is the filtered list. -/
theorem initialize_scans_exactly_nondjango_witness :
    ((strCodes "survey") ∈ [strCodes "django.admin", strCodes "survey"]
       ∧ startswith (strCodes "survey") DJANGO = false)
    ∧ (initializeApps loadEx [strCodes "django.admin", strCodes "survey"]
        ([] : Registry Nat)).1
      = [strCodes "django.admin", strCodes "survey"].filter
          (fun app => !(startswith app DJANGO)) :=
  ⟨(initialize_scans_exactly_nondjango loadEx
      [strCodes "django.admin", strCodes "survey"] []).1
      (strCodes "survey") (by decide),
   (initialize_scans_exactly_nondjango loadEx
      [strCodes "django.admin", strCodes "survey"] []).2 [] (by rfl)⟩

end Drf
